import Mathlib

/-!
Shallow embedding of the AeroSandbox analysis-orchestration core:
`AeroSandboxObject.substitute_solution`, the `ImplicitAnalysis.initialize`
decorator (`init_wrapped`), analysis-specific option validation,
`Airplane.__init__` reference-value population, the electric-motor
performance solver, and (modelled from the spec, since the VLM solver
source is not part of this snapshot) the symmetric half-system linear
solve of the vortex lattice method.

Python floats are modelled as rationals; symbolic CasADi expressions are
modelled as tagged symbolic values resolved by a solution map.
-/

namespace AeroSandbox

/-! ## Values and `substitute_solution` (common.py lines 15-52)

A Python attribute value, as `substitute_solution`'s `convert` helper
distinguishes them: plain scalars (`bool`, `int`, `float`), CasADi
symbolic expressions (on which `sol.value` succeeds, yielding a float),
lists, tuples, owned sub-objects (anything exposing its own
`substitute_solution`), and opaque items on which every conversion
attempt raises and which are returned unchanged. -/
inductive Value where
  | vBool : Bool → Value
  | vInt : Int → Value
  | vFloat : ℚ → Value
  | vSym : ℕ → Value
  | vList : List Value → Value
  | vTuple : List Value → Value
  | vObj : List (String × Value) → Value
  | vOther : ℕ → Value

/-- An object's `__dict__`: its attribute names with their values. -/
abbrev Obj := List (String × Value)

/-- A solution map: `sol.value` on the symbolic expression tagged `n`
returns the rational `sol n`. -/
abbrev Sol := ℕ → ℚ

/-- The guard `isinstance(v, bool) or isinstance(v, int) or isinstance(v, float)`
in the attribute loop of `substitute_solution`. -/
def isScalarNum : Value → Bool
  | .vBool _ => true
  | .vInt _ => true
  | .vFloat _ => true
  | _ => false

mutual

/-- The `convert` closure of `substitute_solution`: first try `sol.value`
(succeeds on symbolic expressions and plain numbers, producing a float),
then the item's own `substitute_solution` (succeeds on sub-objects), then
rebuild lists and tuples — both become Python lists — by converting each
element, and otherwise return the item unchanged. -/
def convert (sol : Sol) : Value → Value
  | .vBool b => .vFloat (if b then 1 else 0)
  | .vInt i => .vFloat (i : ℚ)
  | .vFloat q => .vFloat q
  | .vSym n => .vFloat (sol n)
  | .vObj attrs => .vObj (substituteSolutionAttrs sol attrs)
  | .vList xs => .vList (convertList sol xs)
  | .vTuple xs => .vList (convertList sol xs)
  | .vOther n => .vOther n

/-- Elementwise `convert` over a list comprehension `[convert(i) for i in item]`. -/
def convertList (sol : Sol) : List Value → List Value
  | [] => []
  | x :: xs => convert sol x :: convertList sol xs

/-- The attribute loop of `substitute_solution`: attributes that are plain
`bool`/`int`/`float` scalars are skipped (`continue`), every other
attribute is rebound to `convert` of its value. -/
def substituteSolutionAttrs (sol : Sol) : Obj → Obj
  | [] => []
  | (n, v) :: rest =>
    (n, if isScalarNum v then v else convert sol v) :: substituteSolutionAttrs sol rest

end

/-- The method `AeroSandboxObject.substitute_solution(sol)`: in-place over the
object's `__dict__`, returning the object. -/
def substituteSolution (sol : Sol) (o : Obj) : Obj :=
  substituteSolutionAttrs sol o

mutual

/-- No symbolic expression occurs anywhere reachable in the value
(through lists, tuples and sub-objects). -/
def symFree : Value → Bool
  | .vSym _ => false
  | .vList xs => symFreeList xs
  | .vTuple xs => symFreeList xs
  | .vObj attrs => symFreeObj attrs
  | _ => true

/-- Conjunction of `symFree` over every element of a list. -/
def symFreeList : List Value → Bool
  | [] => true
  | x :: xs => symFree x && symFreeList xs

/-- Conjunction of `symFree` over every attribute of an object. -/
def symFreeObj : Obj → Bool
  | [] => true
  | (_, v) :: rest => symFree v && symFreeObj rest

end

mutual

theorem convert_symFree (sol : Sol) : (v : Value) → symFree (convert sol v) = true
  | .vBool _ => rfl
  | .vInt _ => rfl
  | .vFloat _ => rfl
  | .vSym _ => rfl
  | .vObj attrs => substituteSolutionAttrs_symFree sol attrs
  | .vList xs => convertList_symFree sol xs
  | .vTuple xs => convertList_symFree sol xs
  | .vOther _ => rfl

theorem convertList_symFree (sol : Sol) : (xs : List Value) →
    symFreeList (convertList sol xs) = true
  | [] => rfl
  | x :: xs => by
    simp only [convertList, symFreeList, Bool.and_eq_true]
    exact ⟨convert_symFree sol x, convertList_symFree sol xs⟩

theorem substituteSolutionAttrs_symFree (sol : Sol) : (o : Obj) →
    symFreeObj (substituteSolutionAttrs sol o) = true
  | [] => rfl
  | (n, v) :: rest => by
    simp only [substituteSolutionAttrs, symFreeObj, Bool.and_eq_true]
    refine ⟨?_, substituteSolutionAttrs_symFree sol rest⟩
    by_cases h : isScalarNum v = true
    · simp only [h, if_true]
      cases v <;> simp_all [isScalarNum, symFree]
    · simp only [h, if_false]
      exact convert_symFree sol v

end

mutual

theorem convert_convert (sol : Sol) : (v : Value) →
    convert sol (convert sol v) = convert sol v
  | .vBool _ => rfl
  | .vInt _ => rfl
  | .vFloat _ => rfl
  | .vSym _ => rfl
  | .vObj attrs => by
    simp only [convert]
    exact congrArg Value.vObj (substituteSolutionAttrs_idem sol attrs)
  | .vList xs => by
    simp only [convert]
    exact congrArg Value.vList (convertList_idem sol xs)
  | .vTuple xs => by
    simp only [convert]
    exact congrArg Value.vList (convertList_idem sol xs)
  | .vOther _ => rfl

theorem convertList_idem (sol : Sol) : (xs : List Value) →
    convertList sol (convertList sol xs) = convertList sol xs
  | [] => rfl
  | x :: xs => by
    simp only [convertList]
    exact congrArg₂ List.cons (convert_convert sol x) (convertList_idem sol xs)

theorem substituteSolutionAttrs_idem (sol : Sol) : (o : Obj) →
    substituteSolutionAttrs sol (substituteSolutionAttrs sol o) = substituteSolutionAttrs sol o
  | [] => rfl
  | (n, v) :: rest => by
    simp only [substituteSolutionAttrs]
    refine congrArg₂ List.cons ?_ (substituteSolutionAttrs_idem sol rest)
    by_cases h : isScalarNum v = true
    · rw [if_pos h, if_pos h]
    · rw [if_neg h, convert_convert sol v, ite_self]

end

theorem substituteSolutionAttrs_mem_scalar (sol : Sol) :
    (o : Obj) → ∀ name v, (name, v) ∈ o → isScalarNum v = true →
      (name, v) ∈ substituteSolutionAttrs sol o
  | [], _, _, h, _ => absurd h (List.not_mem_nil _)
  | (n0, v0) :: rest, name, v, h, hs => by
    rcases List.mem_cons.mp h with h1 | h2
    · rw [substituteSolutionAttrs]
      rcases Prod.mk.injEq .. ▸ h1 with ⟨hn, hv⟩
      subst hn; subst hv
      rw [if_pos hs]
      exact List.mem_cons_self _ _
    · rw [substituteSolutionAttrs]
      exact List.mem_cons_of_mem _ (substituteSolutionAttrs_mem_scalar sol rest name v h2 hs)

theorem substituteSolutionAttrs_mem_sym (sol : Sol) :
    (o : Obj) → ∀ name k, (name, Value.vSym k) ∈ o →
      (name, Value.vFloat (sol k)) ∈ substituteSolutionAttrs sol o
  | [], _, _, h => absurd h (List.not_mem_nil _)
  | (n0, v0) :: rest, name, k, h => by
    rcases List.mem_cons.mp h with h1 | h2
    · rw [substituteSolutionAttrs]
      rcases Prod.mk.injEq .. ▸ h1 with ⟨hn, hv⟩
      subst hn; subst hv
      exact List.mem_cons_self _ _
    · rw [substituteSolutionAttrs]
      exact List.mem_cons_of_mem _ (substituteSolutionAttrs_mem_sym sol rest name k h2)

/-- Claim C4: `substitute_solution` recursively replaces every symbolic
attribute value — including symbolic values nested inside lists, tuples
and owned sub-objects — with its solved numeric value, leaves every
attribute that is already a plain bool/int/float untouched, and applying
it a second time with the same solution leaves the object unchanged. -/
theorem substitute_solution_replaces_recursively_and_idempotent (sol : Sol) (o : Obj) :
    substituteSolution sol (substituteSolution sol o) = substituteSolution sol o
    ∧ symFreeObj (substituteSolution sol o) = true
    ∧ (∀ name v, (name, v) ∈ o → isScalarNum v = true →
        (name, v) ∈ substituteSolution sol o)
    ∧ (∀ name k, (name, Value.vSym k) ∈ o →
        (name, Value.vFloat (sol k)) ∈ substituteSolution sol o) :=
  ⟨substituteSolutionAttrs_idem sol o,
   substituteSolutionAttrs_symFree sol o,
   substituteSolutionAttrs_mem_scalar sol o,
   substituteSolutionAttrs_mem_sym sol o⟩

/-- Example solution map used for concrete checks: symbol `n` solves to `n`. -/
def solExample : Sol := fun n => (n : ℚ)

/-- Example object: a symbolic coefficient, a plain float attribute, and a
tuple holding a nested symbolic value. -/
def objExample : Obj :=
  [("CL", Value.vSym 3),
   ("alpha", Value.vFloat 5),
   ("gammas", Value.vTuple [Value.vSym 7, Value.vInt 2])]

/-- Witness for claim C4 at a concrete object and solution. -/
theorem substitute_solution_replaces_recursively_and_idempotent_witness :
    ("CL", Value.vFloat 3) ∈ substituteSolution solExample objExample
    ∧ ("alpha", Value.vFloat 5) ∈ substituteSolution solExample objExample :=
  ⟨(substitute_solution_replaces_recursively_and_idempotent solExample objExample).2.2.2
      "CL" 3 (List.mem_cons_self _ _),
   (substitute_solution_replaces_recursively_and_idempotent solExample objExample).2.2.1
      "alpha" (Value.vFloat 5)
      (List.mem_cons_of_mem _ (List.mem_cons_self _ _)) rfl⟩

/-! ## `ImplicitAnalysis.initialize` (common.py lines 114-210)

The decorator wraps `__init__` with an optional `opti` parameter. The
optimization environment is modelled by its identity and the number of
decision variables it holds (`opti.x.shape == (n, 1)`, so the shape test
`(0, 1)` is `nVars = 0`). The wrapped `__init__` body appends decision
variables to `self.opti` (the spec's append-only discipline) and sets the
object's attributes; the external solver is a deterministic function from
the environment to a solution map. -/

/-- A CasADi `Opti` environment: its object identity and how many decision
variables it currently holds (`opti.x.shape == (nVars, 1)`). -/
structure OptiState where
  id : ℕ
  nVars : ℕ

/-- The body of a decorated `__init__`: it appends `addVars` decision
variables to `self.opti` and sets the object's attributes (which may
reference the environment it was given). -/
structure InitMethod where
  addVars : ℕ
  mkAttrs : OptiState → Obj

/-- The state of an `ImplicitAnalysis` object when `init_wrapped` returns,
instrumented with whether the wrapper invoked `self.opti.solve()` and
`self.substitute_solution(sol)`. -/
structure AnalysisResult where
  opti : OptiState
  optiProvided : Bool
  attrs : Obj
  solveCalled : Bool
  substCalled : Bool

/-- The wrapper `init_wrapped(self, *args, opti=None, **kwargs)` from
`ImplicitAnalysis.initialize`: if `opti` is absent a fresh empty
environment is created and `opti_provided = False`, otherwise the supplied
environment is installed and `opti_provided = True`; then the decorated
`__init__` body runs; finally, if the environment was not provided and
`self.opti.x.shape != (0, 1)`, the wrapper solves and substitutes the
solution in place. -/
def initWrapped (solve : OptiState → Sol) (im : InitMethod)
    (optiArg : Option OptiState) (freshId : ℕ) : AnalysisResult :=
  let opti0 : OptiState := match optiArg with
    | none => { id := freshId, nVars := 0 }
    | some o => o
  let optiProvided : Bool := match optiArg with
    | none => false
    | some _ => true
  let opti1 : OptiState := { opti0 with nVars := opti0.nVars + im.addVars }
  let attrs1 : Obj := im.mkAttrs opti0
  if !optiProvided && !(opti1.nVars == 0) then
    let sol := solve opti1
    { opti := opti1, optiProvided := optiProvided,
      attrs := substituteSolution sol attrs1,
      solveCalled := true, substCalled := true }
  else
    { opti := opti1, optiProvided := optiProvided, attrs := attrs1,
      solveCalled := false, substCalled := false }

/-- A solver that maps every symbol to zero, used for concrete checks. -/
def solveExample : OptiState → Sol := fun _ _ => 0

/-- An `__init__` body that declares no decision variables at all. -/
def initMethodEmpty : InitMethod :=
  { addVars := 0, mkAttrs := fun _ => [("CL", Value.vFloat 1)] }

/-- An `__init__` body declaring two decision variables, with attributes
referencing them symbolically. -/
def initMethodExample : InitMethod :=
  { addVars := 2,
    mkAttrs := fun o => [("CL", Value.vSym o.nVars), ("CD", Value.vSym (o.nVars + 1))] }

/-- Counterexample to claim C1 as stated: an `ImplicitAnalysis` whose
`__init__` declares no decision variables is constructed without a
caller-supplied environment, yet `init_wrapped` skips the solve (the guard
`not self.opti.x.shape == (0, 1)` fails), so neither the solve nor the
substitution happens inside the constructor. -/
theorem standalone_init_with_no_variables_skips_solve :
    (initWrapped solveExample initMethodEmpty none 0).solveCalled = false
    ∧ (initWrapped solveExample initMethodEmpty none 0).substCalled = false := by
  constructor <;> rfl

/-- Claim C1 (amended): when the `opti` argument is omitted, the
constructor performs the internal solve and in-place substitution before
returning if and only if the analysis declared at least one decision
variable; in that case the returned attributes are the substituted ones,
so the object holds no leftover symbolic state. -/
theorem standalone_init_solves_iff_variables_declared
    (solve : OptiState → Sol) (im : InitMethod) (freshId : ℕ) :
    ((initWrapped solve im none freshId).solveCalled = true ↔ im.addVars ≠ 0)
    ∧ (initWrapped solve im none freshId).substCalled
        = (initWrapped solve im none freshId).solveCalled
    ∧ (im.addVars ≠ 0 →
        (initWrapped solve im none freshId).attrs
          = substituteSolution (solve { id := freshId, nVars := im.addVars })
              (im.mkAttrs { id := freshId, nVars := 0 })
        ∧ symFreeObj (initWrapped solve im none freshId).attrs = true)
    ∧ (initWrapped solve im none freshId).optiProvided = false := by
  by_cases h : im.addVars = 0
  · refine ⟨?_, ?_, fun hc => absurd h hc, ?_⟩ <;> simp [initWrapped, h]
  · refine ⟨?_, ?_, ?_, ?_⟩
    · simp [initWrapped, h]
    · simp [initWrapped, h]
    · intro _
      refine ⟨?_, ?_⟩
      · simp [initWrapped, h, substituteSolution]
      · simp [initWrapped, h, substituteSolution, substituteSolutionAttrs_symFree]
    · simp [initWrapped, h]

/-- Witness for the amended claim C1 at a concrete analysis with two
decision variables. -/
theorem standalone_init_solves_iff_variables_declared_witness :
    (initWrapped solveExample initMethodExample none 0).solveCalled = true :=
  (standalone_init_solves_iff_variables_declared solveExample initMethodExample 0).1.mpr
    (by decide)

/-- Claim C3: constructing with a caller-supplied environment never
invokes solve or substitution: the wrapper returns in the symbolic state
with `opti_provided = True` and the supplied environment object itself
(same identity, variables only appended) installed as `self.opti`. -/
theorem provided_opti_never_solved (solve : OptiState → Sol) (im : InitMethod)
    (o : OptiState) (freshId : ℕ) :
    (initWrapped solve im (some o) freshId).solveCalled = false
    ∧ (initWrapped solve im (some o) freshId).substCalled = false
    ∧ (initWrapped solve im (some o) freshId).optiProvided = true
    ∧ (initWrapped solve im (some o) freshId).opti.id = o.id
    ∧ (initWrapped solve im (some o) freshId).opti.nVars = o.nVars + im.addVars
    ∧ (initWrapped solve im (some o) freshId).attrs = im.mkAttrs o := by
  refine ⟨?_, ?_, ?_, ?_, ?_, ?_⟩ <;> rfl

/-- Claim C2: solving a caller-supplied (fresh) environment externally and
then substituting yields exactly the same attribute record — in particular
the same coefficients — as the standalone construction, for any analysis
that declares at least one decision variable. -/
theorem provided_opti_roundtrip_equals_standalone
    (solve : OptiState → Sol) (im : InitMethod) (freshId : ℕ)
    (h : im.addVars ≠ 0) :
    (let standalone := initWrapped solve im none freshId
     let fresh : OptiState := { id := freshId, nVars := 0 }
     let embedded := initWrapped solve im (some fresh) freshId
     let sol := solve embedded.opti
     substituteSolution sol embedded.attrs = standalone.attrs) := by
  simp [initWrapped, h]

/-- Witness for claim C2 at a concrete two-variable analysis. -/
theorem provided_opti_roundtrip_equals_standalone_witness :
    (let standalone := initWrapped solveExample initMethodExample none 0
     let fresh : OptiState := { id := 0, nVars := 0 }
     let embedded := initWrapped solveExample initMethodExample (some fresh) 0
     let sol := solveExample embedded.opti
     substituteSolution sol embedded.attrs = standalone.attrs) :=
  provided_opti_roundtrip_equals_standalone solveExample initMethodExample 0 (by decide)

/-! ## `ImplicitAnalysis.opti` and `opti_provided` properties
(common.py lines 175-210) -/

/-- The error message of `ImplicitAnalysis.ImplicitAnalysisInitError`. -/
def implicitAnalysisInitErrorMessage : String :=
  "Your ImplicitAnalysis object doesn't have an `opti` property! This is almost certainly because you didn't decorate your object's __init__ method with `@ImplicitAnalysis.initialize`, which you should go do."

/-- The backing fields `_opti` and `_opti_provided` of an
`ImplicitAnalysis` object; each is absent until the corresponding setter
has run. -/
structure ImplicitAnalysisFields where
  optiField : Option OptiState
  optiProvidedField : Option Bool

/-- The `opti` property getter: returns `self._opti`, and raises
`ImplicitAnalysisInitError` when the attribute is absent. -/
def optiGetter (s : ImplicitAnalysisFields) : Except String OptiState :=
  match s.optiField with
  | some o => .ok o
  | none => .error implicitAnalysisInitErrorMessage

/-- The `opti_provided` property getter: returns `self._opti_provided`,
and raises `ImplicitAnalysisInitError` when the attribute is absent. -/
def optiProvidedGetter (s : ImplicitAnalysisFields) : Except String Bool :=
  match s.optiProvidedField with
  | some b => .ok b
  | none => .error implicitAnalysisInitErrorMessage

/-- Claim C6: reading `opti` or `opti_provided` before initialization has
stored an environment raises `ImplicitAnalysisInitError`; once a value is
stored, each getter returns the stored value and never raises. -/
theorem opti_getters_raise_only_before_init (s : ImplicitAnalysisFields) :
    (s.optiField = none →
      optiGetter s = .error implicitAnalysisInitErrorMessage)
    ∧ (∀ o, s.optiField = some o → optiGetter s = .ok o)
    ∧ (s.optiProvidedField = none →
      optiProvidedGetter s = .error implicitAnalysisInitErrorMessage)
    ∧ (∀ b, s.optiProvidedField = some b → optiProvidedGetter s = .ok b) := by
  refine ⟨?_, ?_, ?_, ?_⟩
  · intro h; simp [optiGetter, h]
  · intro o h; simp [optiGetter, h]
  · intro h; simp [optiProvidedGetter, h]
  · intro b h; simp [optiProvidedGetter, h]

/-- Witness for claim C6: an uninitialized object raises on `opti`, and an
initialized one returns the stored environment. -/
theorem opti_getters_raise_only_before_init_witness :
    optiGetter { optiField := none, optiProvidedField := none }
      = .error implicitAnalysisInitErrorMessage
    ∧ optiGetter { optiField := some { id := 4, nVars := 1 }, optiProvidedField := some true }
      = .ok { id := 4, nVars := 1 } :=
  ⟨(opti_getters_raise_only_before_init
      { optiField := none, optiProvidedField := none }).1 rfl,
   (opti_getters_raise_only_before_init
      { optiField := some { id := 4, nVars := 1 }, optiProvidedField := some true }).2.1
      { id := 4, nVars := 1 } rfl⟩

/-! ## Analysis-specific option validation (common.py lines 54-110)
and `Airplane.__init__` (geometry/airplane.py lines 15-58)

Option values are modelled as integers; an analysis class is its valid
option keys for the invoking object type (`analysis.option_keys[self]`)
together with its defaults (`analysis.default_analysis_specific_options`).
A raised `ValueError` carries the tuple of valid option keys that the
message `"... Valid options are: ..."` lists. -/

/-- An analysis class, as seen by `validate_analysis_specific_options`:
its identity, the valid option keys for the invoking object type, and the
class-level defaults. -/
structure AnalysisClass where
  id : ℕ
  optionKeys : List String
  defaults : String → ℤ

/-- Assignment `analysis_specific_options[key] = value` on the evolving dict: rebinds
the value at `key`, leaving the key set unchanged. -/
def setOption (acc : List (String × ℤ)) (k : String) (v : ℤ) : List (String × ℤ) :=
  acc.map fun p => if p.1 = k then (p.1, v) else p

/-- The user-options loop of `validate_analysis_specific_options`: for
each user pair, if the key is among the current dict's keys the value is
rebound, otherwise a `ValueError` listing the valid option keys is
raised. -/
def validateLoop : List (String × ℤ) → List (String × ℤ) →
    Except (List String) (List (String × ℤ))
  | acc, [] => .ok acc
  | acc, (k, v) :: rest =>
    if k ∈ acc.map Prod.fst then validateLoop (setOption acc k v) rest
    else .error (acc.map Prod.fst)

/-- The method `AeroSandboxObject.validate_analysis_specific_options`: initialize the
dict to the defaults for this object's valid keys under the analysis, then
fold the user's options through the validation loop. (The `if
analysis_specific_options_user:` truthiness guard is behaviourally the
empty loop, so it needs no separate case.) -/
def validateAnalysisSpecificOptions (a : AnalysisClass)
    (user : List (String × ℤ)) : Except (List String) (List (String × ℤ)) :=
  validateLoop (a.optionKeys.map fun k => (k, a.defaults k)) user

/-- The method `AeroSandboxObject.parse_analysis_specific_options`: validates each
analysis's user options in turn; a `ValueError` from any of them
propagates out of `__init__`. -/
def parseAnalysisSpecificOptions :
    List (AnalysisClass × List (String × ℤ)) →
    Except (List String) (List (AnalysisClass × List (String × ℤ)))
  | [] => .ok []
  | (a, user) :: rest =>
    match validateAnalysisSpecificOptions a user with
    | .error e => .error e
    | .ok v =>
      match parseAnalysisSpecificOptions rest with
      | .error e => .error e
      | .ok r => .ok ((a, v) :: r)

theorem keys_setOption (acc : List (String × ℤ)) (k : String) (v : ℤ) :
    (setOption acc k v).map Prod.fst = acc.map Prod.fst := by
  induction acc with
  | nil => rfl
  | cons p rest ih =>
    simp only [setOption, List.map_cons] at *
    refine congrArg₂ List.cons ?_ ih
    by_cases h : p.1 = k <;> simp [h]

theorem validateLoop_ok_of_valid :
    (user : List (String × ℤ)) → (acc : List (String × ℤ)) →
    (∀ p ∈ user, p.1 ∈ acc.map Prod.fst) →
    ∃ res, validateLoop acc user = .ok res
      ∧ res.map Prod.fst = acc.map Prod.fst
      ∧ ∀ q ∈ res, q ∈ user ∨ (q.1 ∉ user.map Prod.fst ∧ q ∈ acc)
  | [], acc, _ =>
    ⟨acc, rfl, rfl, fun q hq => .inr ⟨List.not_mem_nil _, hq⟩⟩
  | (k, v) :: rest, acc, hvalid => by
    have hk : k ∈ acc.map Prod.fst := hvalid (k, v) (List.mem_cons_self _ _)
    have hrest : ∀ p ∈ rest, p.1 ∈ (setOption acc k v).map Prod.fst := by
      intro p hp
      rw [keys_setOption]
      exact hvalid p (List.mem_cons_of_mem _ hp)
    obtain ⟨res, hres, hkeys, hprop⟩ := validateLoop_ok_of_valid rest (setOption acc k v) hrest
    refine ⟨res, ?_, ?_, ?_⟩
    · rw [validateLoop, if_pos hk]; exact hres
    · rw [hkeys, keys_setOption]
    · intro q hq
      rcases hprop q hq with hqu | ⟨hqk, hqa⟩
      · exact .inl (List.mem_cons_of_mem _ hqu)
      · rcases List.mem_map.mp hqa with ⟨p, hp, hpq⟩
        by_cases hpk : p.1 = k
        · rw [if_pos hpk] at hpq
          left
          rw [← hpq, hpk]
          exact List.mem_cons_self _ _
        · rw [if_neg hpk] at hpq
          right
          subst hpq
          refine ⟨?_, hp⟩
          simp only [List.map_cons, List.mem_cons]
          rintro (h1 | h2)
          · exact hpk h1
          · exact hqk h2

theorem validateLoop_error_payload :
    (user : List (String × ℤ)) → (acc : List (String × ℤ)) → ∀ e,
    validateLoop acc user = .error e → e = acc.map Prod.fst
  | [], _, _, h => by exact absurd h (by rw [validateLoop]; intro hc; cases hc)
  | (k, v) :: rest, acc, e, h => by
    rw [validateLoop] at h
    by_cases hk : k ∈ acc.map Prod.fst
    · rw [if_pos hk] at h
      rw [validateLoop_error_payload rest (setOption acc k v) e h, keys_setOption]
    · rw [if_neg hk] at h
      cases h
      rfl

theorem validateLoop_error_of_invalid :
    (user : List (String × ℤ)) → (acc : List (String × ℤ)) →
    (∃ p ∈ user, p.1 ∉ acc.map Prod.fst) →
    ∃ e, validateLoop acc user = .error e
  | [], _, h => absurd h (by rintro ⟨p, hp, _⟩; exact List.not_mem_nil p hp)
  | (k, v) :: rest, acc, ⟨p, hp, hpk⟩ => by
    rw [validateLoop]
    by_cases hk : k ∈ acc.map Prod.fst
    · rw [if_pos hk]
      refine validateLoop_error_of_invalid rest (setOption acc k v) ⟨p, ?_, ?_⟩
      · rcases List.mem_cons.mp hp with h1 | h2
        · subst h1; exact absurd hk hpk
        · exact h2
      · rw [keys_setOption]; exact hpk
    · rw [if_neg hk]
      exact ⟨_, rfl⟩

theorem keys_of_defaults (keys : List String) (d : String → ℤ) :
    ((keys.map fun k => (k, d k)).map Prod.fst) = keys := by
  induction keys with
  | nil => rfl
  | cons k rest ih => simp only [List.map_cons]; exact congrArg₂ List.cons rfl ih

theorem nodup_keys_value_eq {l : List (String × ℤ)}
    (h : (l.map Prod.fst).Nodup) :
    ∀ {k : String} {v1 v2 : ℤ}, (k, v1) ∈ l → (k, v2) ∈ l → v1 = v2 := by
  induction l with
  | nil => intro k v1 v2 h1 _; exact absurd h1 (List.not_mem_nil _)
  | cons p rest ih =>
    rw [List.map_cons, List.nodup_cons] at h
    intro k v1 v2 h1 h2
    rcases List.mem_cons.mp h1 with e1 | m1 <;> rcases List.mem_cons.mp h2 with e2 | m2
    · rw [← e2] at e1; exact (Prod.mk.injEq .. ▸ e1).2
    · exfalso
      apply h.1
      rcases Prod.mk.injEq .. ▸ e1.symm with ⟨hk, _⟩
      rw [hk]
      exact List.mem_map.mpr ⟨(k, v2), m2, rfl⟩
    · exfalso
      apply h.1
      rcases Prod.mk.injEq .. ▸ e2.symm with ⟨hk, _⟩
      rw [hk]
      exact List.mem_map.mpr ⟨(k, v1), m1, rfl⟩
    · exact ih h.2 m1 m2

/-- Claim C8: for valid user options, `validate_analysis_specific_options`
returns a dict whose key set is exactly `analysis.option_keys[self]`,
where each (valid) user-supplied key maps to the user's value and every
other key maps to the analysis default; an empty user dict returns exactly
the defaults. -/
theorem validate_options_defaults_overridden (a : AnalysisClass)
    (user : List (String × ℤ))
    (hvalid : ∀ p ∈ user, p.1 ∈ a.optionKeys) :
    (∃ res, validateAnalysisSpecificOptions a user = .ok res
      ∧ res.map Prod.fst = a.optionKeys
      ∧ (∀ q ∈ res, q ∈ user ∨ (q.1 ∉ user.map Prod.fst ∧ q.2 = a.defaults q.1))
      ∧ ((user.map Prod.fst).Nodup → ∀ k v, (k, v) ∈ user → (k, v) ∈ res))
    ∧ validateAnalysisSpecificOptions a []
        = .ok (a.optionKeys.map fun k => (k, a.defaults k)) := by
  refine ⟨?_, rfl⟩
  have hvalid' : ∀ p ∈ user, p.1 ∈ ((a.optionKeys.map fun k => (k, a.defaults k)).map Prod.fst) := by
    rw [keys_of_defaults]; exact hvalid
  obtain ⟨res, hres, hkeys, hprop⟩ :=
    validateLoop_ok_of_valid user (a.optionKeys.map fun k => (k, a.defaults k)) hvalid'
  rw [keys_of_defaults] at hkeys
  refine ⟨res, hres, hkeys, ?_, ?_⟩
  · intro q hq
    rcases hprop q hq with h1 | ⟨h2, h3⟩
    · exact .inl h1
    · refine .inr ⟨h2, ?_⟩
      rcases List.mem_map.mp h3 with ⟨kk, _, hkk⟩
      rw [← hkk]
  · intro hnodup k v hkv
    have hk : k ∈ res.map Prod.fst := by
      rw [hkeys]; exact hvalid (k, v) hkv
    rcases List.mem_map.mp hk with ⟨q, hq, hq1⟩
    rcases hprop q hq with h1 | ⟨h2, _⟩
    · have : q.2 = v := nodup_keys_value_eq hnodup (hq1 ▸ (Prod.mk.eta ▸ h1)) hkv
      have hqe : q = (k, v) := Prod.ext hq1 this
      rw [← hqe]; exact hq
    · exact absurd (List.mem_map.mpr ⟨(k, v), hkv, hq1.symm ▸ rfl⟩) (hq1 ▸ h2)

/-- A concrete analysis class used in witnesses. -/
def analysisExample : AnalysisClass :=
  { id := 0,
    optionKeys := ["n_panels", "spacing"],
    defaults := fun k => if k = "n_panels" then 20 else 1 }

/-- Witness for claim C8 at a concrete analysis class and user dict. -/
theorem validate_options_defaults_overridden_witness :
    ∃ res, validateAnalysisSpecificOptions analysisExample [("spacing", 7)] = .ok res
      ∧ res.map Prod.fst = analysisExample.optionKeys
      ∧ ("spacing", 7) ∈ res := by
  obtain ⟨⟨res, h1, h2, _, h4⟩, _⟩ :=
    validate_options_defaults_overridden analysisExample [("spacing", 7)]
      (by intro p hp; rcases List.mem_cons.mp hp with h | h
          · subst h; simp [analysisExample]
          · exact absurd h (List.not_mem_nil _))
  exact ⟨res, h1, h2, h4 (by simp) "spacing" 7 (List.mem_cons_self _ _)⟩

/-- A wing, by the three quantities `Airplane.__init__` may query from the
first wing: `area()`, `mean_aerodynamic_chord()` and `span()`. -/
structure Wing where
  areaVal : ℚ
  macVal : ℚ
  spanVal : ℚ

/-- A fuselage; `Airplane.__init__` only stores the list. -/
structure Fuselage where
  fuselageId : ℕ

/-- The state of an `Airplane` object after `__init__`. -/
structure Airplane where
  name : String
  xyzRef : ℚ × ℚ × ℚ
  wings : List Wing
  fuselages : List Fuselage
  sRef : Option ℚ
  cRef : Option ℚ
  bRef : Option ℚ
  analysisSpecificOptions : List (AnalysisClass × List (String × ℤ))

/-- The constructor `Airplane.__init__`: defaults `wings`/`fuselages` to empty lists; then
`try: main_wing = self.wings[0] ...` populates each reference quantity
that is `None` from the first wing, the `except IndexError: pass` leaving
all three as passed when there is no wing; finally the analysis-specific
options are parsed, a `ValueError` from an invalid option key escaping the
constructor. -/
def airplaneInit (name : String) (xyzRef : ℚ × ℚ × ℚ)
    (wings : Option (List Wing)) (fuselages : Option (List Fuselage))
    (sRef cRef bRef : Option ℚ)
    (aso : List (AnalysisClass × List (String × ℤ))) :
    Except (List String) Airplane :=
  let wings := wings.getD []
  let fuselages := fuselages.getD []
  let refs : Option ℚ × Option ℚ × Option ℚ :=
    match wings with
    | [] => (sRef, cRef, bRef)
    | w :: _ =>
      (some (sRef.getD w.areaVal), some (cRef.getD w.macVal), some (bRef.getD w.spanVal))
  match parseAnalysisSpecificOptions aso with
  | .error e => .error e
  | .ok aso' =>
    .ok { name := name, xyzRef := xyzRef, wings := wings, fuselages := fuselages,
          sRef := refs.1, cRef := refs.2.1, bRef := refs.2.2,
          analysisSpecificOptions := aso' }

/-- Claim C9: constructing an `Airplane` with an empty or omitted wing
list and unspecified reference quantities succeeds — the first-wing lookup
fails silently — leaving `s_ref`, `c_ref`, `b_ref` all `None`; when a
first wing exists, each unspecified reference quantity is populated from
that first wing only (the result does not depend on the remaining
wings). -/
theorem airplane_reference_values_from_first_wing :
    (∀ (name : String) (xyz : ℚ × ℚ × ℚ) (fus : Option (List Fuselage)),
      airplaneInit name xyz none fus none none none []
        = .ok { name := name, xyzRef := xyz, wings := [], fuselages := fus.getD [],
                sRef := none, cRef := none, bRef := none, analysisSpecificOptions := [] })
    ∧ (∀ (name : String) (xyz : ℚ × ℚ × ℚ) (fus : Option (List Fuselage)),
      airplaneInit name xyz (some []) fus none none none []
        = .ok { name := name, xyzRef := xyz, wings := [], fuselages := fus.getD [],
                sRef := none, cRef := none, bRef := none, analysisSpecificOptions := [] })
    ∧ (∀ (name : String) (xyz : ℚ × ℚ × ℚ) (fus : Option (List Fuselage))
        (w : Wing) (rest : List Wing),
      airplaneInit name xyz (some (w :: rest)) fus none none none []
        = .ok { name := name, xyzRef := xyz, wings := w :: rest, fuselages := fus.getD [],
                sRef := some w.areaVal, cRef := some w.macVal, bRef := some w.spanVal,
                analysisSpecificOptions := [] }) :=
  ⟨fun _ _ _ => rfl, fun _ _ _ => rfl, fun _ _ _ _ _ => rfl⟩

/-- Claim C5: constructing an object whose analysis-specific options dict
contains a key that is not a valid option for that object under the named
analysis fails at construction time with an error listing the valid option
keys; when every supplied key is valid, no such error is raised. -/
theorem invalid_option_key_fails_construction (name : String)
    (xyz : ℚ × ℚ × ℚ) (wings : Option (List Wing))
    (fus : Option (List Fuselage)) (sRef cRef bRef : Option ℚ)
    (a : AnalysisClass) (user : List (String × ℤ)) :
    ((∃ p ∈ user, p.1 ∉ a.optionKeys) →
      airplaneInit name xyz wings fus sRef cRef bRef [(a, user)]
        = .error a.optionKeys)
    ∧ ((∀ p ∈ user, p.1 ∈ a.optionKeys) →
      ∃ plane, airplaneInit name xyz wings fus sRef cRef bRef [(a, user)]
        = .ok plane) := by
  constructor
  · rintro ⟨p, hp, hpk⟩
    have hpk' : p.1 ∉ ((a.optionKeys.map fun k => (k, a.defaults k)).map Prod.fst) := by
      rw [keys_of_defaults]; exact hpk
    obtain ⟨e, he⟩ :=
      validateLoop_error_of_invalid user (a.optionKeys.map fun k => (k, a.defaults k))
        ⟨p, hp, hpk'⟩
    have hepay := validateLoop_error_payload user _ e he
    rw [keys_of_defaults] at hepay
    subst hepay
    simp only [airplaneInit, parseAnalysisSpecificOptions,
      validateAnalysisSpecificOptions, he]
  · intro hvalid
    have hvalid' : ∀ p ∈ user,
        p.1 ∈ ((a.optionKeys.map fun k => (k, a.defaults k)).map Prod.fst) := by
      rw [keys_of_defaults]; exact hvalid
    obtain ⟨res, hres, _, _⟩ :=
      validateLoop_ok_of_valid user (a.optionKeys.map fun k => (k, a.defaults k)) hvalid'
    simp only [airplaneInit, parseAnalysisSpecificOptions,
      validateAnalysisSpecificOptions, hres]
    exact ⟨_, rfl⟩

/-- Witness for claim C5: an invalid option key fails construction listing
the valid keys, and a valid one constructs successfully. -/
theorem invalid_option_key_fails_construction_witness :
    airplaneInit "Untitled" (0, 0, 0) none none none none none
        [(analysisExample, [("colour", 3)])]
      = .error ["n_panels", "spacing"]
    ∧ ∃ plane, airplaneInit "Untitled" (0, 0, 0) none none none none none
        [(analysisExample, [("spacing", 7)])] = .ok plane :=
  ⟨(invalid_option_key_fails_construction "Untitled" (0, 0, 0) none none none none none
      analysisExample [("colour", 3)]).1
      ⟨("colour", 3), List.mem_cons_self _ _, by simp [analysisExample]⟩,
   (invalid_option_key_fails_construction "Untitled" (0, 0, 0) none none none none none
      analysisExample [("spacing", 7)]).2
      (by intro p hp
          rcases List.mem_cons.mp hp with h | h
          · subst h; simp [analysisExample]
          · exact absurd h (List.not_mem_nil _))⟩

/-! ## `motor_electric_performance` (library/propulsion_electric.py lines 4-74)

The four motor quantities are optional inputs; the body is a while loop
over the known-flags, modelled as one step function iterated under a fuel
bound (`none` marking a loop that did not terminate within the bound).
`np.pi` is modelled as a parameter `piv`. -/

/-- The four motor quantities, each `some` when known. -/
structure MotorState where
  voltage : Option ℚ
  current : Option ℚ
  rpm : Option ℚ
  torque : Option ℚ

/-- The while-loop condition `voltage_known and current_known and rpm_known
and torque_known`. -/
def allKnown (s : MotorState) : Bool :=
  s.voltage.isSome && s.current.isSome && s.rpm.isSome && s.torque.isSome

/-- One pass of the while-loop body of `motor_electric_performance`, the
four `if` blocks in source order, each updating the state the later
blocks see. -/
def motorStep (piv kv resistance noLoadCurrent : ℚ) (s : MotorState) : MotorState :=
  let kvRads := kv * piv / 30
  let s :=
    if s.rpm.isSome && (s.current.isSome && !s.voltage.isSome) then
      { s with voltage := some (s.rpm.getD 0 * piv / 30 / kvRads + s.current.getD 0 * resistance) }
    else s
  let s :=
    if s.torque.isSome && !s.current.isSome then
      { s with current := some (s.torque.getD 0 * kvRads + noLoadCurrent) }
    else s
  let s :=
    if s.voltage.isSome && (s.rpm.isSome && !s.current.isSome) then
      { s with current := some ((s.voltage.getD 0 - s.rpm.getD 0 * piv / 30 / kvRads) / resistance) }
    else s
  let s :=
    if s.voltage.isSome && (!s.rpm.isSome && s.current.isSome) then
      { s with rpm := some ((s.voltage.getD 0 - s.current.getD 0 * resistance) * kvRads * 30 / piv) }
    else s
  let s :=
    if s.current.isSome && !s.torque.isSome then
      { s with torque := some ((s.current.getD 0 - noLoadCurrent) / kvRads) }
    else s
  s

/-- The while loop, iterated at most `fuel` times; `none` models a loop
that has not terminated within the bound. -/
def motorLoop (piv kv resistance noLoadCurrent : ℚ) :
    ℕ → MotorState → Option MotorState
  | fuel, s =>
    if allKnown s then some s
    else
      match fuel with
      | 0 => none
      | n + 1 => motorLoop piv kv resistance noLoadCurrent n
          (motorStep piv kv resistance noLoadCurrent s)

/-- The function `motor_electric_performance`: the two input assertions, the while
loop, and the closing efficiency computation
`(rpm * pi/30) * torque / (voltage * current)`, returning all four
quantities plus efficiency. -/
def motorElectricPerformance (piv kv resistance noLoadCurrent : ℚ)
    (voltage current rpm torque : Option ℚ) (fuel : ℕ) :
    Except String (ℚ × ℚ × ℚ × ℚ × ℚ) :=
  if !((voltage.isSome.toNat + current.isSome.toNat
        + rpm.isSome.toNat + torque.isSome.toNat) == 2) then
    .error "You must give exactly two input arguments."
  else if current.isSome && torque.isSome then
    .error "You cannot supply the combination of current and torque - this makes for an ill-posed problem."
  else
    match motorLoop piv kv resistance noLoadCurrent fuel
        { voltage := voltage, current := current, rpm := rpm, torque := torque } with
    | none => .error "while loop did not terminate"
    | some s =>
      let v := s.voltage.getD 0
      let c := s.current.getD 0
      let r := s.rpm.getD 0
      let t := s.torque.getD 0
      .ok (v, c, r, t, r * piv / 30 * t / (v * c))

/-- The documented precondition: exactly two of the four quantities are
supplied, and not the (current, torque) pair. -/
def validMotorInputs (voltage current rpm torque : Option ℚ) : Prop :=
  voltage.isSome.toNat + current.isSome.toNat
      + rpm.isSome.toNat + torque.isSome.toNat = 2
  ∧ ¬(current.isSome = true ∧ torque.isSome = true)

instance (voltage current rpm torque : Option ℚ) :
    Decidable (validMotorInputs voltage current rpm torque) := by
  unfold validMotorInputs
  infer_instance

/-- Claim C10: for every pair of supplied quantities other than
(current, torque), the while loop terminates within at most two
iterations and the function returns all four quantities plus efficiency;
for every other combination of supplied arguments one of the two input
assertions fails before the loop is entered. -/
theorem motor_two_inputs_terminates_within_two_iterations
    (piv kv resistance noLoadCurrent : ℚ) (v c r t : Option ℚ) :
    (validMotorInputs v c r t →
      ∃ out, motorElectricPerformance piv kv resistance noLoadCurrent v c r t 2 = .ok out)
    ∧ (¬validMotorInputs v c r t →
      motorElectricPerformance piv kv resistance noLoadCurrent v c r t 2
          = .error "You must give exactly two input arguments."
      ∨ motorElectricPerformance piv kv resistance noLoadCurrent v c r t 2
          = .error "You cannot supply the combination of current and torque - this makes for an ill-posed problem.") := by
  rcases v with _ | x <;> rcases c with _ | y <;> rcases r with _ | z <;> rcases t with _ | w
  case none.none.none.none =>
    exact ⟨fun h => absurd h (by simp [validMotorInputs]), fun _ => .inl rfl⟩
  case none.none.none.some =>
    exact ⟨fun h => absurd h (by simp [validMotorInputs]), fun _ => .inl rfl⟩
  case none.none.some.none =>
    exact ⟨fun h => absurd h (by simp [validMotorInputs]), fun _ => .inl rfl⟩
  case none.none.some.some =>
    refine ⟨fun _ => ?_, fun h => absurd ⟨rfl, by simp⟩ h⟩
    simp [motorElectricPerformance, motorLoop, motorStep, allKnown]
  case none.some.none.none =>
    exact ⟨fun h => absurd h (by simp [validMotorInputs]), fun _ => .inl rfl⟩
  case none.some.none.some =>
    exact ⟨fun h => absurd h (by simp [validMotorInputs]), fun _ => .inr rfl⟩
  case none.some.some.none =>
    refine ⟨fun _ => ?_, fun h => absurd ⟨rfl, by simp⟩ h⟩
    simp [motorElectricPerformance, motorLoop, motorStep, allKnown]
  case none.some.some.some =>
    exact ⟨fun h => absurd h (by simp [validMotorInputs]), fun _ => .inl rfl⟩
  case some.none.none.none =>
    exact ⟨fun h => absurd h (by simp [validMotorInputs]), fun _ => .inl rfl⟩
  case some.none.none.some =>
    refine ⟨fun _ => ?_, fun h => absurd ⟨rfl, by simp⟩ h⟩
    simp [motorElectricPerformance, motorLoop, motorStep, allKnown]
  case some.none.some.none =>
    refine ⟨fun _ => ?_, fun h => absurd ⟨rfl, by simp⟩ h⟩
    simp [motorElectricPerformance, motorLoop, motorStep, allKnown]
  case some.none.some.some =>
    exact ⟨fun h => absurd h (by simp [validMotorInputs]), fun _ => .inl rfl⟩
  case some.some.none.none =>
    refine ⟨fun _ => ?_, fun h => absurd ⟨rfl, by simp⟩ h⟩
    simp [motorElectricPerformance, motorLoop, motorStep, allKnown]
  case some.some.none.some =>
    exact ⟨fun h => absurd h (by simp [validMotorInputs]), fun _ => .inl rfl⟩
  case some.some.some.none =>
    exact ⟨fun h => absurd h (by simp [validMotorInputs]), fun _ => .inl rfl⟩
  case some.some.some.some =>
    exact ⟨fun h => absurd h (by simp [validMotorInputs]), fun _ => .inl rfl⟩

/-- Witness for claim C10: supplying rpm and torque (the pair needing the
second loop iteration) succeeds, at concrete motor constants. -/
theorem motor_two_inputs_terminates_within_two_iterations_witness :
    ∃ out, motorElectricPerformance 3 1000 (1/10) (2/5)
        none none (some 100) (some 1) 2 = .ok out :=
  (motor_two_inputs_terminates_within_two_iterations 3 1000 (1/10) (2/5)
      none none (some 100) (some 1)).1 (by decide)

/-! ## Symmetric VLM solve (modelled from the spec)

The VLM solver itself is not among the source files of this snapshot
(only its test file and the geometry symmetry predicate are), so this
section is modelled from the spec: panels of a geometrically symmetric
configuration come in mirror pairs — own-side panels indexed by `Sum.inl`,
mirrored panels by `Sum.inr` — the influence of panel `j` on panel `i`
depends only on whether they are on the same side (block `P`) or opposite
sides (block `Q`), a laterally symmetric flight condition gives both
mirror copies the same right-hand side, the half-system superposes the
own-side and mirrored-side contributions (`P + Q`), lateral loads flip
sign under mirroring while lift/drag loads are preserved, and
coefficients are weighted sums of the circulation vector. -/

/-- Modelled from the spec: the full influence matrix of a mirror-symmetric
panel set, `(i, j)` depending only on same-side (`P`) vs opposite-side
(`Q`) placement. -/
def vlmFullMatrix {m : ℕ} (P Q : Matrix (Fin m) (Fin m) ℚ) :
    Matrix (Fin m ⊕ Fin m) (Fin m ⊕ Fin m) ℚ :=
  Matrix.fromBlocks P Q Q P

/-- Modelled from the spec: the reduced half-system matrix, superposing the
own-side and mirrored-side contributions. -/
def vlmHalfMatrix {m : ℕ} (P Q : Matrix (Fin m) (Fin m) ℚ) :
    Matrix (Fin m) (Fin m) ℚ :=
  P + Q

/-- Modelled from the spec: expanding a half-system circulation vector to
the full panel set by mirroring. -/
def mirrorExtend {m : ℕ} (g : Fin m → ℚ) : Fin m ⊕ Fin m → ℚ :=
  Sum.elim g g

/-- Modelled from the spec: an aerodynamic coefficient as the load-weighted
sum of panel circulations (Kutta-Joukowski loads, summed and
nondimensionalized into a per-panel weight). -/
def aeroCoefficient {m : ℕ} (w : Fin m ⊕ Fin m → ℚ) (γ : Fin m ⊕ Fin m → ℚ) : ℚ :=
  ∑ i, w i * γ i

/-- Modelled from the spec: the same coefficient computed from the
half-system solve, superposing each panel's own and mirrored load. -/
def aeroCoefficientHalf {m : ℕ} (w : Fin m ⊕ Fin m → ℚ) (g : Fin m → ℚ) : ℚ :=
  ∑ i, (w (Sum.inl i) + w (Sum.inr i)) * g i

/-- A load weight that flips sign under mirroring (side force CY, roll Cl,
yaw Cn for a planar symmetric wing). -/
def mirrorAntisymmetric {m : ℕ} (w : Fin m ⊕ Fin m → ℚ) : Prop :=
  ∀ i, w (Sum.inr i) = - w (Sum.inl i)

/-- A load weight preserved under mirroring (lift CL, drag CD). -/
def mirrorSymmetric {m : ℕ} (w : Fin m ⊕ Fin m → ℚ) : Prop :=
  ∀ i, w (Sum.inr i) = w (Sum.inl i)

theorem vlmFullMatrix_mulVec_mirrorExtend {m : ℕ}
    (P Q : Matrix (Fin m) (Fin m) ℚ) (g : Fin m → ℚ) :
    (vlmFullMatrix P Q).mulVec (mirrorExtend g)
      = Sum.elim ((vlmHalfMatrix P Q).mulVec g) ((vlmHalfMatrix P Q).mulVec g) := by
  rw [vlmFullMatrix, mirrorExtend, Matrix.fromBlocks_mulVec]
  have h1 : Sum.elim g g ∘ Sum.inl = g := rfl
  have h2 : Sum.elim g g ∘ Sum.inr = g := rfl
  rw [h1, h2, vlmHalfMatrix, Matrix.add_mulVec]
  exact congrArg₂ Sum.elim rfl (add_comm _ _)

theorem full_solution_eq_mirrorExtend {m : ℕ}
    (P Q : Matrix (Fin m) (Fin m) ℚ) (b : Fin m → ℚ)
    (γfull : Fin m ⊕ Fin m → ℚ) (γhalf : Fin m → ℚ)
    (hinj : Function.Injective (vlmFullMatrix P Q).mulVec)
    (hfull : (vlmFullMatrix P Q).mulVec γfull = Sum.elim b b)
    (hhalf : (vlmHalfMatrix P Q).mulVec γhalf = b) :
    γfull = mirrorExtend γhalf := by
  apply hinj
  rw [hfull, vlmFullMatrix_mulVec_mirrorExtend, hhalf]

theorem aeroCoefficient_antisym_mirrorExtend {m : ℕ}
    (w : Fin m ⊕ Fin m → ℚ) (g : Fin m → ℚ)
    (hw : mirrorAntisymmetric w) :
    aeroCoefficient w (mirrorExtend g) = 0 := by
  rw [aeroCoefficient, Fintype.sum_sum_type]
  have h2 : ∑ i, w (Sum.inr i) * mirrorExtend g (Sum.inr i)
      = -∑ i, w (Sum.inl i) * mirrorExtend g (Sum.inl i) := by
    rw [← Finset.sum_neg_distrib]
    refine Finset.sum_congr rfl fun i _ => ?_
    rw [hw i]
    show -w (Sum.inl i) * g i = -(w (Sum.inl i) * g i)
    ring
  rw [h2, add_neg_cancel]

theorem aeroCoefficient_mirrorExtend_eq_half {m : ℕ}
    (w : Fin m ⊕ Fin m → ℚ) (g : Fin m → ℚ) :
    aeroCoefficient w (mirrorExtend g) = aeroCoefficientHalf w g := by
  rw [aeroCoefficient, aeroCoefficientHalf, Fintype.sum_sum_type,
    ← Finset.sum_add_distrib]
  refine Finset.sum_congr rfl fun i _ => ?_
  show w (Sum.inl i) * g i + w (Sum.inr i) * g i = _
  ring

/-- Claim C7 (modelled from the spec): for a mirror-symmetric panel set
under a laterally symmetric flight condition, the solved full-system
circulation is the mirror extension of the half-system solution, so the
lateral coefficients CY, Cl, Cn (mirror-antisymmetric loads) are exactly
zero, and CL and CD computed from the full-system solve equal CL and CD
computed from the reduced half-system solve. -/
theorem symmetric_wing_lateral_coefficients_zero {m : ℕ}
    (P Q : Matrix (Fin m) (Fin m) ℚ) (b : Fin m → ℚ)
    (γfull : Fin m ⊕ Fin m → ℚ) (γhalf : Fin m → ℚ)
    (wCY wCl wCn wCL wCD : Fin m ⊕ Fin m → ℚ)
    (hinj : Function.Injective (vlmFullMatrix P Q).mulVec)
    (hfull : (vlmFullMatrix P Q).mulVec γfull = Sum.elim b b)
    (hhalf : (vlmHalfMatrix P Q).mulVec γhalf = b)
    (hCY : mirrorAntisymmetric wCY) (hCl : mirrorAntisymmetric wCl)
    (hCn : mirrorAntisymmetric wCn)
    (_hCL : mirrorSymmetric wCL) (_hCD : mirrorSymmetric wCD) :
    aeroCoefficient wCY γfull = 0
    ∧ aeroCoefficient wCl γfull = 0
    ∧ aeroCoefficient wCn γfull = 0
    ∧ aeroCoefficient wCL γfull = aeroCoefficientHalf wCL γhalf
    ∧ aeroCoefficient wCD γfull = aeroCoefficientHalf wCD γhalf := by
  have he := full_solution_eq_mirrorExtend P Q b γfull γhalf hinj hfull hhalf
  subst he
  exact ⟨aeroCoefficient_antisym_mirrorExtend wCY γhalf hCY,
    aeroCoefficient_antisym_mirrorExtend wCl γhalf hCl,
    aeroCoefficient_antisym_mirrorExtend wCn γhalf hCn,
    aeroCoefficient_mirrorExtend_eq_half wCL γhalf,
    aeroCoefficient_mirrorExtend_eq_half wCD γhalf⟩

/-- A concrete 1-panel-per-side symmetric configuration for the witness. -/
def pExample : Matrix (Fin 1) (Fin 1) ℚ := Matrix.of fun _ _ => 2

/-- The opposite-side influence block of the witness configuration. -/
def qExample : Matrix (Fin 1) (Fin 1) ℚ := Matrix.of fun _ _ => 0

/-- A mirror-antisymmetric lateral load weight for the witness. -/
def wAntiExample : Fin 1 ⊕ Fin 1 → ℚ := Sum.elim (fun _ => 3) fun _ => -3

/-- A mirror-symmetric lift load weight for the witness. -/
def wSymExample : Fin 1 ⊕ Fin 1 → ℚ := Sum.elim (fun _ => 7) fun _ => 7

/-- The half-system circulation solution of the witness configuration. -/
def gammaHalfExample : Fin 1 → ℚ := fun _ => 1/2

/-- The full-system circulation solution of the witness configuration. -/
def gammaFullExample : Fin 1 ⊕ Fin 1 → ℚ := Sum.elim gammaHalfExample gammaHalfExample

/-- The boundary-condition right-hand side of the witness configuration. -/
def bExample : Fin 1 → ℚ := fun _ => 1

theorem vlmFullMatrix_example_mulVec (x : Fin 1 ⊕ Fin 1 → ℚ) :
    (vlmFullMatrix pExample qExample).mulVec x = fun i => 2 * x i := by
  funext i
  cases i with
  | inl a =>
    rw [Subsingleton.elim a 0]
    simp [vlmFullMatrix, pExample, qExample, Matrix.mulVec, Matrix.dotProduct,
      Fintype.sum_sum_type, Fin.sum_univ_one]
  | inr a =>
    rw [Subsingleton.elim a 0]
    simp [vlmFullMatrix, pExample, qExample, Matrix.mulVec, Matrix.dotProduct,
      Fintype.sum_sum_type, Fin.sum_univ_one]

/-- Witness for claim C7 at the concrete symmetric configuration: lateral
coefficient zero and full-system CL equal to the half-system CL. -/
theorem symmetric_wing_lateral_coefficients_zero_witness :
    aeroCoefficient wAntiExample gammaFullExample = 0
    ∧ aeroCoefficient wSymExample gammaFullExample
      = aeroCoefficientHalf wSymExample gammaHalfExample := by
  have h := symmetric_wing_lateral_coefficients_zero pExample qExample bExample
    gammaFullExample gammaHalfExample
    wAntiExample wAntiExample wAntiExample wSymExample wSymExample
    (by
      intro x y hxy
      have hx := vlmFullMatrix_example_mulVec x
      have hy := vlmFullMatrix_example_mulVec y
      rw [hx, hy] at hxy
      funext i
      have h2 := congrFun hxy i
      exact mul_left_cancel₀ (by norm_num) h2)
    (by
      rw [vlmFullMatrix_example_mulVec]
      funext i
      cases i <;> simp [gammaFullExample, gammaHalfExample, bExample])
    (by
      funext i
      simp [vlmHalfMatrix, pExample, qExample, Matrix.mulVec, Matrix.dotProduct,
        Fin.sum_univ_one, gammaHalfExample, bExample])
    (fun i => by simp [wAntiExample])
    (fun i => by simp [wAntiExample])
    (fun i => by simp [wAntiExample])
    (fun i => rfl)
    (fun i => rfl)
  exact ⟨h.1, h.2.2.2.1⟩

end AeroSandbox
